import Mathlib

/-!
Verification development for the slash-command webhook bot
(`pkg/slack/bot.go`, `pkg/slack/help.go`, `pkg/handlers`).

The Go source is embedded shallowly: bytes are `Nat` (< 256), machine
words are `Nat` reduced modulo `2 ^ 32` or checked against the `int64`
range where the source does, strings are Lean `String`s, fallible Go
calls return `Option`/`Except`, and the effectful handler body
(`BuildHandler` in `pkg/slack/bot.go`) becomes a pure function from the
request data to the ordered list of observable steps it performs
(acknowledgment write, handler invocation, outbound reply call).
-/

namespace SlackBot

/-! ## 32-bit word arithmetic (Go `uint32` operations used by `crypto/sha256`) -/

/-- Truncation to a 32-bit word. -/
def w32 (n : Nat) : Nat := n % 4294967296

/-- Right rotation of a 32-bit word. -/
def rotr (n x : Nat) : Nat := w32 ((x >>> n) ||| (x <<< (32 - n)))

/-- Bitwise complement of a 32-bit word. -/
def wnot (x : Nat) : Nat := x ^^^ 4294967295

/-! ## SHA-256 (the `crypto/sha256` hash used by `BuildHandler`)

The Go code calls the standard library SHA-256; the function is
reproduced here from FIPS 180-4 so that the signature pipeline is fully
executable. Bytes are naturals below 256, words naturals below `2 ^ 32`. -/

/-- The SHA-256 round constants (FIPS 180-4 section 4.2.2, here in
decimal). -/
def sha256K : List Nat :=
  [1116352408, 1899447441, 3049323471, 3921009573,
   961987163, 1508970993, 2453635748, 2870763221,
   3624381080, 310598401, 607225278, 1426881987,
   1925078388, 2162078206, 2614888103, 3248222580,
   3835390401, 4022224774, 264347078, 604807628,
   770255983, 1249150122, 1555081692, 1996064986,
   2554220882, 2821834349, 2952996808, 3210313671,
   3336571891, 3584528711, 113926993, 338241895,
   666307205, 773529912, 1294757372, 1396182291,
   1695183700, 1986661051, 2177026350, 2456956037,
   2730485921, 2820302411, 3259730800, 3345764771,
   3516065817, 3600352804, 4094571909, 275423344,
   430227734, 506948616, 659060556, 883997877,
   958139571, 1322822218, 1537002063, 1747873779,
   1955562222, 2024104815, 2227730452, 2361852424,
   2428436474, 2756734187, 3204031479, 3329325298]

/-- The SHA-256 initial hash state (FIPS 180-4 section 5.3.3, here in
decimal). -/
def sha256H0 : List Nat :=
  [1779033703, 3144134277, 1013904242, 2773480762,
   1359893119, 2600822924, 528734635, 1541459225]

/-- Big-endian byte decomposition: `bytesBE k n` is the `k` lowest bytes
of `n`, most significant first. -/
def bytesBE : Nat → Nat → List Nat
  | 0, _ => []
  | k + 1, n => ((n >>> (8 * k)) &&& 255) :: bytesBE k n

/-- SHA-256 message padding: append `0x80`, zeros to 56 mod 64, then the
bit length as a big-endian 64-bit quantity. -/
def sha256Pad (msg : List Nat) : List Nat :=
  msg ++ [0x80] ++ List.replicate ((119 - msg.length % 64) % 64) 0
      ++ bytesBE 8 (msg.length * 8)

/-- Group four consecutive big-endian bytes into 32-bit words. -/
def bytesToWords : List Nat → List Nat
  | p0 :: p1 :: p2 :: p3 :: rest =>
      ((p0 <<< 24) ||| (p1 <<< 16) ||| (p2 <<< 8) ||| p3) :: bytesToWords rest
  | _ => []

/-- The small sigma-0 word function of SHA-256. -/
def ssig0 (x : Nat) : Nat := rotr 7 x ^^^ rotr 18 x ^^^ (x >>> 3)

/-- The small sigma-1 word function of SHA-256. -/
def ssig1 (x : Nat) : Nat := rotr 17 x ^^^ rotr 19 x ^^^ (x >>> 10)

/-- The big sigma-0 word function of SHA-256. -/
def bsig0 (x : Nat) : Nat := rotr 2 x ^^^ rotr 13 x ^^^ rotr 22 x

/-- The big sigma-1 word function of SHA-256. -/
def bsig1 (x : Nat) : Nat := rotr 6 x ^^^ rotr 11 x ^^^ rotr 25 x

/-- The choice word function of SHA-256. -/
def chf (u v w : Nat) : Nat := (u &&& v) ^^^ (wnot u &&& w)

/-- The majority word function of SHA-256. -/
def majf (u v w : Nat) : Nat := (u &&& v) ^^^ (u &&& w) ^^^ (v &&& w)

/-- Extend a 16-word message schedule by `k` further words. -/
def extendSchedule : Nat → List Nat → List Nat
  | 0, ws => ws
  | k + 1, ws =>
      let n := ws.length
      let wi := w32 (ssig1 (ws.getD (n - 2) 0) + ws.getD (n - 7) 0
                     + ssig0 (ws.getD (n - 15) 0) + ws.getD (n - 16) 0)
      extendSchedule k (ws ++ [wi])

/-- The 64-word message schedule of one SHA-256 block. -/
def sha256Schedule (block : List Nat) : List Nat :=
  extendSchedule 48 (bytesToWords block)

/-- One SHA-256 round on the working state `[a, b, c, d, e, f, g, h]`,
consuming a round constant paired with a schedule word. -/
def sha256Round (state : List Nat) (kw : Nat × Nat) : List Nat :=
  match state with
  | [a, b, c, d, e, f, g, h] =>
      let t1 := w32 (h + bsig1 e + chf e f g + kw.1 + kw.2)
      let t2 := w32 (bsig0 a + majf a b c)
      [w32 (t1 + t2), a, b, c, w32 (d + t1), e, f, g]
  | s => s

/-- The SHA-256 compression function applied to one 64-byte block. -/
def sha256Compress (h : List Nat) (block : List Nat) : List Nat :=
  let final := (List.zip sha256K (sha256Schedule block)).foldl sha256Round h
  List.zipWith (fun x y => w32 (x + y)) h final

/-- Split a padded message into `k` blocks of 64 bytes. -/
def splitBlocks : Nat → List Nat → List (List Nat)
  | 0, _ => []
  | k + 1, l => l.take 64 :: splitBlocks k (l.drop 64)

/-- The SHA-256 digest (32 bytes) of a byte sequence. -/
def sha256 (msg : List Nat) : List Nat :=
  let padded := sha256Pad msg
  let hFinal := (splitBlocks (padded.length / 64) padded).foldl sha256Compress sha256H0
  (hFinal.map (bytesBE 4)).flatten

/-! ## HMAC-SHA256 (the `crypto/hmac` keyed hash used by `BuildHandler`) -/

/-- HMAC-SHA256 per RFC 2104 with a 64-byte block size, as implemented
by `crypto/hmac` and invoked with the signing key at
`pkg/slack/bot.go:116`. -/
def hmacSha256 (key msg : List Nat) : List Nat :=
  let k0 := if key.length > 64 then sha256 key else key
  let k1 := k0 ++ List.replicate (64 - k0.length) 0
  sha256 ((k1.map (fun b => b ^^^ 0x5c)) ++ sha256 ((k1.map (fun b => b ^^^ 0x36)) ++ msg))

/-! ## Hexadecimal and UTF-8 encoding -/

/-- Lowercase hexadecimal digit for a value below 16, as produced by
`encoding/hex`. -/
def hexDigitChar (n : Nat) : Char :=
  if n < 10 then Char.ofNat (48 + n) else Char.ofNat (87 + n)

/-- Lowercase hex encoding of a byte sequence (`hex.EncodeToString`). -/
def hexEncode (bytes : List Nat) : String :=
  String.mk ((bytes.map (fun b => [hexDigitChar (b / 16), hexDigitChar (b % 16)])).flatten)

/-- UTF-8 encoding of one character, as Go strings store their bytes. -/
def utf8EncodeChar (c : Char) : List Nat :=
  let n := c.toNat
  if n < 0x80 then [n]
  else if n < 0x800 then
    [0xc0 ||| (n >>> 6), 0x80 ||| (n &&& 0x3f)]
  else if n < 0x10000 then
    [0xe0 ||| (n >>> 12), 0x80 ||| ((n >>> 6) &&& 0x3f), 0x80 ||| (n &&& 0x3f)]
  else
    [0xf0 ||| (n >>> 18), 0x80 ||| ((n >>> 12) &&& 0x3f),
     0x80 ||| ((n >>> 6) &&& 0x3f), 0x80 ||| (n &&& 0x3f)]

/-- The bytes of a Go string: the UTF-8 encoding of its characters. -/
def strBytes (s : String) : List Nat :=
  (s.toList.map utf8EncodeChar).flatten

/-! ## Go string primitives used by the handler

`strings.Split`, `strings.Cut` and the built-in string comparison are
modelled at the character level. Signature headers and form data are
ASCII, where Go bytes and Lean characters coincide. -/

/-- Accumulator worker for `strings.Split` with a one-character
separator: cuts at every occurrence, keeping empty pieces. -/
def splitOnCharAux (c : Char) : List Char → List Char → List (List Char)
  | [], acc => [acc.reverse]
  | x :: xs, acc =>
      if x = c then acc.reverse :: splitOnCharAux c xs []
      else splitOnCharAux c xs (x :: acc)

/-- Go `strings.Split` on a one-character separator. On the empty
string it yields one empty piece, never the empty list. -/
def splitOnChar (c : Char) (s : List Char) : List (List Char) :=
  splitOnCharAux c s []

/-- The `strings.Split(text, " ")` call at `pkg/slack/bot.go:161`,
lifted to `String`. -/
def goSplitSpace (s : String) : List String :=
  (splitOnChar ' ' s.toList).map String.mk

/-- Go `strings.Cut`: the piece before the first occurrence of the
separator and the remainder after it (the whole input and an empty
remainder when the separator is absent). -/
def cutChar (c : Char) : List Char → List Char × List Char
  | [] => ([], [])
  | x :: xs =>
      if x = c then ([], xs)
      else
        let p := cutChar c xs
        (x :: p.1, p.2)

/-- Character-level worker for Go built-in string comparison, paired
with the number of character comparisons it performs: the comparison
stops at the first mismatch. -/
def goStringEqCost : List Char → List Char → Bool × Nat
  | [], [] => (true, 0)
  | a :: as, b :: bs =>
      if a = b then
        let r := goStringEqCost as bs
        (r.1, r.2 + 1)
      else (false, 1)
  | _, _ => (false, 0)

/-- Go built-in string equality (the `!=` at `pkg/slack/bot.go:127`)
with its cost: unequal lengths are dismissed outright, equal-length
strings are scanned until the first mismatching position. -/
def goStringEq (s t : String) : Bool × Nat :=
  if s.length ≠ t.length then (false, 0) else goStringEqCost s.toList t.toList

/-- Length of the longest common leading segment of two lists. -/
def commonPrefixLen : List Char → List Char → Nat
  | a :: as, b :: bs => if a = b then commonPrefixLen as bs + 1 else 0
  | _, _ => 0

/-- Whether `pat` occurs at the head of `s`. -/
def leadsWith : List Char → List Char → Bool
  | [], _ => true
  | p :: ps, q :: qs => p = q && leadsWith ps qs
  | _ :: _, [] => false

/-- Whether `pat` occurs contiguously anywhere inside `s`. -/
def hasSub (pat : List Char) : List Char → Bool
  | [] => leadsWith pat []
  | c :: rest => leadsWith pat (c :: rest) || hasSub pat rest

/-! ## Integer parsing (`strconv.ParseInt(s, 10, 64)`) -/

/-- Decimal digit run: `some n` when the characters are one or more
decimal digits. -/
def parseDecDigits : List Char → Option Nat → Option Nat
  | [], acc => acc
  | c :: cs, acc =>
      if '0' ≤ c ∧ c ≤ '9' then
        parseDecDigits cs (some (acc.getD 0 * 10 + (c.toNat - 48)))
      else none

/-- The `strconv.ParseInt(s, 10, 64)` call at `pkg/slack/bot.go:95`:
an optional sign, one or more decimal digits, and an `int64` range
check; `none` models a non-nil error. -/
def parseInt64 (s : String) : Option Int :=
  match s.toList with
  | [] => none
  | '+' :: rest =>
      (parseDecDigits rest none).bind fun n =>
        if n ≤ 9223372036854775807 then some (n : Int) else none
  | '-' :: rest =>
      (parseDecDigits rest none).bind fun n =>
        if n ≤ 9223372036854775808 then some (-(n : Int)) else none
  | l =>
      (parseDecDigits l none).bind fun n =>
        if n ≤ 9223372036854775807 then some (n : Int) else none

/-! ## Form-body parsing (`Request.ParseForm`, i.e. `net/url.ParseQuery`)

`BuildHandler` re-wraps the verified body and calls `r.ParseForm`
(`pkg/slack/bot.go:136-143`); for a POST with no URL query string that
is exactly `url.ParseQuery` on the body. Percent escapes are decoded to
the character of the escaped byte value (form fields here are ASCII). -/

/-- Whether a character is a hexadecimal digit (`ishex` in `net/url`). -/
def isHexChar (c : Char) : Bool :=
  ('0' ≤ c ∧ c ≤ '9') ∨ ('a' ≤ c ∧ c ≤ 'f') ∨ ('A' ≤ c ∧ c ≤ 'F')

/-- Value of a hexadecimal digit (`unhex` in `net/url`). -/
def hexVal (c : Char) : Nat :=
  if '0' ≤ c ∧ c ≤ '9' then c.toNat - 48
  else if 'a' ≤ c ∧ c ≤ 'f' then c.toNat - 87
  else if 'A' ≤ c ∧ c ≤ 'F' then c.toNat - 55
  else 0

/-- Go `url.QueryUnescape`: `%XX` escapes become the escaped byte,
`+` becomes a space, and a malformed escape is an error. -/
def queryUnescape : List Char → Except String (List Char)
  | [] => .ok []
  | '%' :: a :: b :: rest =>
      if isHexChar a ∧ isHexChar b then
        (queryUnescape rest).map (fun r => Char.ofNat (hexVal a * 16 + hexVal b) :: r)
      else .error "invalid URL escape"
  | '%' :: _ => .error "invalid URL escape"
  | '+' :: rest => (queryUnescape rest).map (fun r => ' ' :: r)
  | c :: rest => (queryUnescape rest).map (fun r => c :: r)

/-- Process the `&`-separated segments of a query string in order, as
the loop of `url.parseQuery` does: a segment containing `;` is an
error, empty segments are skipped, and each remaining segment is cut at
the first `=` and unescaped. The association list keeps every pair in
order of appearance, so the first entry for a key is `Form[key][0]`. -/
def processSegments : List (List Char) → Except String (List (String × String))
  | [] => .ok []
  | seg :: rest =>
      if seg.contains ';' then .error "invalid semicolon separator in query"
      else if seg = [] then processSegments rest
      else
        let kv := cutChar '=' seg
        match queryUnescape kv.1 with
        | .error e => .error e
        | .ok key =>
          match queryUnescape kv.2 with
          | .error e => .error e
          | .ok value =>
            (processSegments rest).map (fun m => (String.mk key, String.mk value) :: m)

/-- Go `url.ParseQuery`. Iterating `strings.Cut` on `&` until the
query is exhausted visits exactly the `&`-split segments, with a final
empty segment skipped by the empty-key check, so the loop is rendered
as a pass over the split. On error the Go loop keeps collecting pairs
and returns the first error; the caller at `pkg/slack/bot.go:140` only
ever checks error against nil, so the short-circuiting rendering is
observationally the same. -/
def ParseQuery (query : String) : Except String (List (String × String)) :=
  processSegments (splitOnChar '&' query.toList)

/-! ## Data model (`pkg/slack/bot.go:19-45`) -/

/-- The decoded form body (`SlackSlashCommandBody`,
`pkg/slack/bot.go:32-40`). The `APIAppID` field carries the misspelled
tag `api_add_id` from the source, reproduced as the key it decodes
from. -/
structure SlackSlashCommandBody where
  Command : String
  Text : String
  ResponseURL : String
  TriggerID : String
  UserID : String
  APIAppID : String
  SSLCheck : String
deriving DecidableEq, Repr

/-- The outbound reply (`SlackResponse`, `pkg/slack/bot.go:42-45`). -/
structure SlackResponse where
  ResponseType : String
  Text : String
deriving DecidableEq, Repr

/-- The `SlackSlashCommandHandler` interface (`pkg/slack/bot.go:19-24`).
`Handle` returns `Except`: `.error` models a non-nil Go error whose
`Error()` text is the payload. -/
structure Handler where
  Handle : List String → SlackSlashCommandBody → Except String SlackResponse
  CommandName : String
  CommandArguments : String
  CommandDescription : String

/-- The help-relevant surface of a handler: the three metadata strings
the help text is built from. -/
structure HandlerMeta where
  CommandName : String
  CommandArguments : String
  CommandDescription : String
deriving DecidableEq, Repr

/-- The metadata of a handler. -/
def metaOf (h : Handler) : HandlerMeta :=
  ⟨h.CommandName, h.CommandArguments, h.CommandDescription⟩

/-- The raw transport inputs consumed by the returned handler closure:
method, the two headers read at `pkg/slack/bot.go:74-92`, and the body
bytes. -/
structure InboundRequest where
  method : String
  contentType : String
  signatureHeader : String
  timestampHeader : String
  body : String
deriving DecidableEq, Repr

/-- The observable actions of one run of the request handler, in
program order: the early-return rejections of `pkg/slack/bot.go:64-130`,
the `w.WriteHeader(http.StatusOK)` acknowledgment at line 133, the
post-acknowledgment outcomes of lines 139-158, and the dispatch handler
call and outbound `Respond` call of lines 171-188. -/
inductive Step where
  | rejectedMethod : Step
  | rejectedContentType : Step
  | rejectedMissingSignature : Step
  | rejectedMissingTimestamp : Step
  | rejectedBadTimestamp : Step
  | rejectedReplayWindow : Step
  | rejectedSignature : Step
  | ack : Step
  | parseFailed : Step
  | sslCheck : Step
  | invoked (command : String) (args : List String) : Step
  | responded (url : String) (responseType : String) (text : String) : Step
deriving DecidableEq, Repr

/-! ## The verification and dispatch pipeline (`BuildHandler`) -/

/-- The expected request signature computed at `pkg/slack/bot.go:115-124`:
the hex HMAC-SHA256 of `v0:{timestamp}:{body}` under the signing key,
behind the literal `v0=`. -/
def expectedSignature (signingKey timestampHeader body : String) : String :=
  "v0=" ++ hexEncode (hmacSha256 (strBytes signingKey)
    (strBytes ("v0:" ++ timestampHeader ++ ":" ++ body)))

/-- First value decoded for a key: `BuildHandler` copies `element[0]`
of each form key at `pkg/slack/bot.go:144-147`, and the association
list from `ParseQuery` keeps values in order of appearance. A missing
key leaves the struct field at its zero value under
`mapstructure.Decode`. -/
def firstVal (form : List (String × String)) (key : String) : String :=
  match form.find? (fun p => p.1 = key) with
  | some p => p.2
  | none => ""

/-- The `mapstructure.Decode` call at `pkg/slack/bot.go:148-153`,
reading each tagged field from the single-valued form map. -/
def decodeSlashCommandBody (form : List (String × String)) : SlackSlashCommandBody :=
  { Command := firstVal form "command"
    Text := firstVal form "text"
    ResponseURL := firstVal form "response_url"
    TriggerID := firstVal form "trigger_id"
    UserID := firstVal form "user_id"
    APIAppID := firstVal form "api_add_id"
    SSLCheck := firstVal form "ssl_check" }

/-- The command-text split of `pkg/slack/bot.go:160-169`: split on
single spaces, default the command to `help`, overwrite it with the
first piece when the split is non-empty, and take the remaining pieces
as arguments when there are any. -/
def parseCommandText (text : String) : String × List String :=
  let commandTextSplit := goSplitSpace text
  let command := if commandTextSplit.length > 0 then commandTextSplit.getD 0 "help" else "help"
  let commandArguments := if commandTextSplit.length > 1 then commandTextSplit.drop 1 else []
  (command, commandArguments)

/-- The reply actually delivered after a handler runs: the handler
response, or the ephemeral error reply synthesized at
`pkg/slack/bot.go:176-181`. -/
def respOf : Except String SlackResponse → SlackResponse
  | .ok r => r
  | .error e => { ResponseType := "ephemeral", Text := e }

/-- The dispatch loop of `pkg/slack/bot.go:171-188`: scan the handlers
in registration order, invoke the first whose name equals the command,
send exactly one reply for it, and break; no match falls off the loop
with no action. -/
def dispatch : List Handler → String → List String → SlackSlashCommandBody → List Step
  | [], _, _, _ => []
  | h :: rest, command, args, scb =>
      if h.CommandName = command then
        let response := respOf (h.Handle args scb)
        [Step.invoked command args,
         Step.responded scb.ResponseURL response.ResponseType response.Text]
      else dispatch rest command args scb

/-- Everything `BuildHandler` does after the acknowledgment write of
`pkg/slack/bot.go:133`: parse the form body (stop on failure), decode
it, stop on an SSL health check, split the text, and dispatch. -/
def afterAck (handlers : List Handler) (body : String) : List Step :=
  match ParseQuery body with
  | .error _ => [Step.parseFailed]
  | .ok form =>
      let slashCommandBody := decodeSlashCommandBody form
      if slashCommandBody.SSLCheck = "1" then [Step.sslCheck]
      else
        let parsed := parseCommandText slashCommandBody.Text
        dispatch handlers parsed.1 parsed.2 slashCommandBody

/-- The handler closure returned by `BuildHandler`
(`pkg/slack/bot.go:64-190`) as a function from the current time and the
request to its ordered observable steps. `io.ReadAll` and `mac.Write`
cannot fail on an in-memory body, so those two error returns have no
branch here; `time.Since(...).Abs().Seconds() > 300` is taken at whole
seconds, matching a timestamp header of whole seconds. -/
def BuildHandler (signingKey : String) (handlers : List Handler)
    (now : Int) (r : InboundRequest) : List Step :=
  if r.method ≠ "POST" then [Step.rejectedMethod]
  else if r.contentType ≠ "application/x-www-form-urlencoded" then [Step.rejectedContentType]
  else if r.signatureHeader.length = 0 then [Step.rejectedMissingSignature]
  else if r.timestampHeader.length = 0 then [Step.rejectedMissingTimestamp]
  else
    match parseInt64 r.timestampHeader with
    | none => [Step.rejectedBadTimestamp]
    | some timestampHeaderInt =>
      if (now - timestampHeaderInt).natAbs > 300 then [Step.rejectedReplayWindow]
      else
        let signatureComputedFormatted :=
          expectedSignature signingKey r.timestampHeader r.body
        if (goStringEq signatureComputedFormatted r.signatureHeader).1 = false then
          [Step.rejectedSignature]
        else Step.ack :: afterAck handlers r.body

/-! ## The help handler (`pkg/slack/help.go`) and registry construction -/

/-- One listing entry of the help text: `name arguments`, newline,
`description`, newline (`pkg/slack/help.go:20`). -/
def helpEntry (m : HandlerMeta) : String :=
  m.CommandName ++ " " ++ m.CommandArguments ++ "\n" ++ m.CommandDescription ++ "\n"

/-- The help text accumulation of `pkg/slack/help.go:18-25`: every
entry in order, with a further newline after each entry that is not the
last. -/
def helpTextFor : List HandlerMeta → String
  | [] => ""
  | m :: rest => helpEntry m ++ (if rest.isEmpty then "" else "\n") ++ helpTextFor rest

/-- The fixed metadata of the help handler
(`pkg/slack/help.go:33-43`). -/
def helpMeta : HandlerMeta :=
  { CommandName := "help"
    CommandArguments := ""
    CommandDescription :=
      "Displays a list of the available commands, their arguments, and their description" }

/-- The handler built by `NewHelpHandler` (`pkg/slack/help.go:11-31`).
In Go it stores a pointer to the registry slice variable and reads it
at execution time; here it is constructed from the metadata of the
registry it will observe then. Its reply is always ephemeral with the
accumulated help text, and it never fails. -/
def NewHelpHandler (registryMetas : List HandlerMeta) : Handler :=
  { Handle := fun _ _ =>
      .ok { ResponseType := "ephemeral", Text := helpTextFor registryMetas }
    CommandName := helpMeta.CommandName
    CommandArguments := helpMeta.CommandArguments
    CommandDescription := helpMeta.CommandDescription }

/-- The registry built by `NewSlackBot` (`pkg/slack/bot.go:47-56`).
`NewHelpHandler(&handlers)` captures the address of the local slice
variable and `handlers = append(handlers, helpHandler)` reassigns that
same variable, so at execution time the help handler pointer
dereferences to the appended slice: the registry it enumerates is the
full final registry, its own entry (in last position) included. -/
def NewSlackBotHandlers (handlers : List Handler) : List Handler :=
  handlers ++ [NewHelpHandler (handlers.map metaOf ++ [helpMeta])]

/-! ## The responder (`Respond`, `pkg/slack/bot.go:192-215`) -/

/-- One outbound HTTP request as built by `Respond`: a method, the
callback URL, a content type and a body. The response to it is dropped
(`defer response.Body.Close()` and no other use), so no response data
appears in the model. -/
structure OutboundRequest where
  method : String
  url : String
  contentType : String
  body : String
deriving DecidableEq, Repr

/-- String escaping of `encoding/json` with its default HTML escaping:
quote, backslash, newline, carriage return and tab get two-character
escapes, while the HTML-significant characters, the remaining control
characters and the two line separators get `\u` escapes. -/
def jsonEscapeChar (c : Char) : String :=
  if c = '"' then "\\\""
  else if c = '\\' then "\\\\"
  else if c = '\n' then "\\n"
  else if c = '\r' then "\\r"
  else if c = '\t' then "\\t"
  else if c = '<' then "\\u003c"
  else if c = '>' then "\\u003e"
  else if c = '&' then "\\u0026"
  else if c.toNat < 32 then
    "\\u00" ++ String.mk [hexDigitChar (c.toNat / 16), hexDigitChar (c.toNat % 16)]
  else if c.toNat = 8232 then "\\u2028"
  else if c.toNat = 8233 then "\\u2029"
  else String.singleton c

/-- A JSON string literal: the escaped text between double quotes. -/
def jsonQuote (s : String) : String :=
  "\"" ++ String.join (s.toList.map jsonEscapeChar) ++ "\""

/-- The `json.Marshal` of a `SlackResponse`: an object whose two fields
carry the tags `response_type,omitempty` and `text,omitempty`
(`pkg/slack/bot.go:42-45`), so each field is emitted only when its
string is non-empty, in struct order. -/
def jsonMarshalSlackResponse (r : SlackResponse) : String :=
  "\x7b" ++ String.intercalate ","
      ((if r.ResponseType = "" then [] else ["\"response_type\":" ++ jsonQuote r.ResponseType])
        ++ (if r.Text = "" then [] else ["\"text\":" ++ jsonQuote r.Text]))
    ++ "\x7d"

/-- The `Respond` function (`pkg/slack/bot.go:192-215`): marshal the
reply, build one POST to the callback URL with the JSON content type,
execute it once, and discard the response body. -/
def Respond (responseURL : String) (responseBody : SlackResponse) : OutboundRequest :=
  { method := "POST"
    url := responseURL
    contentType := "application/json; charset=utf-8"
    body := jsonMarshalSlackResponse responseBody }

/-! ## The echo handler (`pkg/handlers`, used by `main.go`) -/

/-- The echo handler registered by `CreateHandlers`: replies in-channel
with its arguments joined by single spaces and never fails. -/
def echoHandler : Handler :=
  { Handle := fun arguments _ =>
      .ok { ResponseType := "in_channel", Text := String.intercalate " " arguments }
    CommandName := "echo"
    CommandArguments := "[words...]"
    CommandDescription := "Accepts any number of arguments and echoes them back to the channel" }

/-! ## Auxiliary definitions for the statements -/

/-- Whether a step belongs to the work `BuildHandler` performs after
the verification phase: form parsing, the SSL short-circuit, handler
invocation and the outbound reply call. -/
def Step.isPostVerify : Step → Bool
  | .parseFailed => true
  | .sslCheck => true
  | .invoked _ _ => true
  | .responded _ _ _ => true
  | _ => false

/-- The help listing as the specification phrases it: one entry per
registered handler in order, `name argumentsDescription` then the
description each on their own line, and a blank line between
consecutive entries. Stated independently of `helpTextFor` so the
accumulated text can be compared against it. -/
def specHelpListing : List HandlerMeta → String
  | [] => ""
  | [m] => helpEntry m
  | m :: rest => helpEntry m ++ "\n" ++ specHelpListing rest

/-- A handler whose execution always fails, exercising the error
conversion of `pkg/slack/bot.go:176-181`. -/
def failHandler : Handler :=
  { Handle := fun _ _ => .error "boom"
    CommandName := "fail"
    CommandArguments := ""
    CommandDescription := "Always returns an error" }

/-- An all-empty decoded body, used as a concrete fixture. -/
def emptyScb : SlackSlashCommandBody :=
  { Command := "", Text := "", ResponseURL := "", TriggerID := "", UserID := ""
    APIAppID := "", SSLCheck := "" }

/-- A fixed timestamp header used by the concrete fixtures. -/
def tsStr : String := "1600000000"

/-- A well-formed inbound request carrying `body`, signed correctly for
`signingKey` at the fixture timestamp. -/
def mkReq (signingKey body : String) : InboundRequest :=
  { method := "POST"
    contentType := "application/x-www-form-urlencoded"
    signatureHeader := expectedSignature signingKey tsStr body
    timestampHeader := tsStr
    body := body }

set_option maxRecDepth 100000

/-! ## Lemmas about the split and comparison primitives -/

theorem splitOnCharAux_ne_nil (c : Char) :
    ∀ (l acc : List Char), splitOnCharAux c l acc ≠ []
  | [], acc => by simp [splitOnCharAux]
  | x :: xs, acc => by
      by_cases h : x = c
      · simp [splitOnCharAux, h]
      · simpa [splitOnCharAux, h] using splitOnCharAux_ne_nil c xs (x :: acc)

theorem goSplitSpace_ne_nil (s : String) : goSplitSpace s ≠ [] := by
  unfold goSplitSpace splitOnChar
  intro h
  exact splitOnCharAux_ne_nil ' ' s.toList [] (List.map_eq_nil_iff.mp h)

theorem intercalate_cons_of_ne_nil (sep a : List Char) :
    ∀ l : List (List Char), l ≠ [] →
      List.intercalate sep (a :: l) = a ++ sep ++ List.intercalate sep l
  | [], h => absurd rfl h
  | _ :: _, _ => by simp [List.intercalate]

theorem intercalate_splitOnCharAux (c : Char) :
    ∀ (l acc : List Char),
      List.intercalate [c] (splitOnCharAux c l acc) = acc.reverse ++ l
  | [], acc => by simp [splitOnCharAux, List.intercalate]
  | x :: xs, acc => by
      by_cases h : x = c
      · have h1 : splitOnCharAux c (x :: xs) acc = acc.reverse :: splitOnCharAux c xs [] := by
          simp [splitOnCharAux, h]
        rw [h1, intercalate_cons_of_ne_nil [c] acc.reverse _ (splitOnCharAux_ne_nil c xs []),
          intercalate_splitOnCharAux c xs []]
        simp [h]
      · have h1 : splitOnCharAux c (x :: xs) acc = splitOnCharAux c xs (x :: acc) := by
          simp [splitOnCharAux, h]
        rw [h1, intercalate_splitOnCharAux c xs (x :: acc)]
        simp

theorem splitOnCharAux_no_sep (c : Char) :
    ∀ (l acc : List Char), c ∉ acc → ∀ t ∈ splitOnCharAux c l acc, c ∉ t
  | [], acc, hacc => by
      intro t ht
      simp [splitOnCharAux] at ht
      subst ht
      simpa using hacc
  | x :: xs, acc, hacc => by
      intro t ht
      by_cases h : x = c
      · simp only [splitOnCharAux, if_pos h, List.mem_cons] at ht
        rcases ht with ht | ht
        · subst ht; simpa using hacc
        · exact splitOnCharAux_no_sep c xs [] (by simp) t ht
      · simp only [splitOnCharAux, if_neg h] at ht
        refine splitOnCharAux_no_sep c xs (x :: acc) ?_ t ht
        intro hmem
        rcases List.mem_cons.mp hmem with he | he
        · exact h he.symm
        · exact hacc he

theorem goStringEqCost_fst : ∀ as bs : List Char, (goStringEqCost as bs).1 = true ↔ as = bs
  | [], [] => by simp [goStringEqCost]
  | [], _ :: _ => by simp [goStringEqCost]
  | _ :: _, [] => by simp [goStringEqCost]
  | a :: as, b :: bs => by
      by_cases h : a = b
      · subst h
        simp [goStringEqCost, goStringEqCost_fst as bs]
      · simp [goStringEqCost, h]

theorem goStringEq_fst (s t : String) : (goStringEq s t).1 = true ↔ s = t := by
  unfold goStringEq
  split
  · rename_i hne
    constructor
    · intro hf; simp at hf
    · intro he; subst he; exact absurd rfl hne
  · rw [goStringEqCost_fst]
    constructor
    · intro h; exact String.ext h
    · intro h; rw [h]

theorem goStringEqCost_cost (as bs : List Char) (hlen : as.length = bs.length)
    (hne : as ≠ bs) : (goStringEqCost as bs).2 = commonPrefixLen as bs + 1 := by
  induction as generalizing bs with
  | nil =>
      cases bs with
      | nil => exact absurd rfl hne
      | cons q qs => exact absurd hlen (by simp)
  | cons p ps ih =>
      cases bs with
      | nil => exact absurd hlen (by simp)
      | cons q qs =>
          by_cases hpq : p = q
          · subst hpq
            have h1 : ps.length = qs.length := by simpa using hlen
            have h2 : ps ≠ qs := fun he => hne (by rw [he])
            simp [goStringEqCost, commonPrefixLen, ih qs h1 h2]
          · simp [goStringEqCost, commonPrefixLen, hpq]

/-! ## Lemmas about dispatch and the post-acknowledgment phase -/

theorem dispatch_no_match : ∀ (hs : List Handler) (command : String) (args : List String)
    (scb : SlackSlashCommandBody), (∀ h ∈ hs, h.CommandName ≠ command) →
    dispatch hs command args scb = []
  | [], _, _, _, _ => rfl
  | h :: rest, command, args, scb, hno => by
      have h1 : h.CommandName ≠ command := hno h (by simp)
      simp only [dispatch, if_neg h1]
      exact dispatch_no_match rest command args scb (fun h2 hmem => hno h2 (by simp [hmem]))

theorem dispatch_first_match : ∀ (pre : List Handler) (h : Handler) (post : List Handler)
    (command : String) (args : List String) (scb : SlackSlashCommandBody),
    (∀ h2 ∈ pre, h2.CommandName ≠ command) → h.CommandName = command →
    dispatch (pre ++ h :: post) command args scb =
      [Step.invoked command args,
       Step.responded scb.ResponseURL (respOf (h.Handle args scb)).ResponseType
         (respOf (h.Handle args scb)).Text]
  | [], h, post, command, args, scb, _, hname => by
      simp only [List.nil_append, dispatch, if_pos hname]
  | p :: pre, h, post, command, args, scb, hpre, hname => by
      have h1 : p.CommandName ≠ command := hpre p (by simp)
      simp only [List.cons_append, dispatch, if_neg h1]
      exact dispatch_first_match pre h post command args scb
        (fun h2 hmem => hpre h2 (by simp [hmem])) hname

theorem dispatch_shapes : ∀ (hs : List Handler) (command : String) (args : List String)
    (scb : SlackSlashCommandBody),
    dispatch hs command args scb = [] ∨
    ∃ rt tx, dispatch hs command args scb =
      [Step.invoked command args, Step.responded scb.ResponseURL rt tx]
  | [], _, _, _ => Or.inl rfl
  | h :: rest, command, args, scb => by
      by_cases hn : h.CommandName = command
      · exact Or.inr ⟨(respOf (h.Handle args scb)).ResponseType,
          (respOf (h.Handle args scb)).Text, by simp [dispatch, hn]⟩
      · simpa [dispatch, hn] using dispatch_shapes rest command args scb

theorem afterAck_shapes (hs : List Handler) (body : String) :
    afterAck hs body = [Step.parseFailed] ∨ afterAck hs body = [Step.sslCheck] ∨
    afterAck hs body = [] ∨
    ∃ cmd args u rt tx,
      afterAck hs body = [Step.invoked cmd args, Step.responded u rt tx] := by
  unfold afterAck
  cases ParseQuery body with
  | error e => exact Or.inl rfl
  | ok form =>
    by_cases hssl : (decodeSlashCommandBody form).SSLCheck = "1"
    · exact Or.inr (Or.inl (by simp [hssl]))
    · refine Or.inr (Or.inr ?_)
      simp only [if_neg hssl]
      rcases dispatch_shapes hs (parseCommandText (decodeSlashCommandBody form).Text).1
        (parseCommandText (decodeSlashCommandBody form).Text).2
        (decodeSlashCommandBody form) with hd | ⟨rt, tx, hd⟩
      · exact Or.inl hd
      · exact Or.inr ⟨_, _, _, rt, tx, hd⟩

theorem replay_not_mem_afterAck (hs : List Handler) (body : String) :
    Step.rejectedReplayWindow ∉ afterAck hs body := by
  rcases afterAck_shapes hs body with h | h | h | ⟨cmd, args, u, rt, tx, h⟩ <;>
    simp [h]

theorem parseInt64_length_ne_zero (s : String) (v : Int)
    (h : parseInt64 s = some v) : s.length ≠ 0 := by
  intro hlen
  have hdata : s.toList = [] := List.length_eq_zero.mp hlen
  rw [parseInt64, hdata] at h
  simp at h

theorem helpTextFor_eq_spec : ∀ metas : List HandlerMeta,
    helpTextFor metas = specHelpListing metas
  | [] => rfl
  | [m] => by simp [helpTextFor, specHelpListing]
  | m :: m2 :: rest => by
      have ih := helpTextFor_eq_spec (m2 :: rest)
      show helpEntry m ++ (if (m2 :: rest).isEmpty then "" else "\n") ++ helpTextFor (m2 :: rest)
          = helpEntry m ++ "\n" ++ specHelpListing (m2 :: rest)
      rw [ih]
      simp

/-! ## Claim C10: split semantics of the command text -/

/-- Claim C10: the parser splits the command text on single space
characters only and keeps empty pieces arising from consecutive
spaces — `cmd  a` (two spaces) resolves to command `cmd` with
arguments `["", "a"]` — and in general the command followed by the
argument list is exactly the space-split of the text: a token list
whose pieces contain no space and which, re-joined with single spaces,
restores the text. -/
theorem c10_split_semantics :
    parseCommandText "cmd  a" = ("cmd", ["", "a"]) ∧
    (∀ text : String,
      (parseCommandText text).1 :: (parseCommandText text).2 = goSplitSpace text) ∧
    (∀ l : List Char, List.intercalate [' '] (splitOnChar ' ' l) = l ∧
      ∀ t ∈ splitOnChar ' ' l, ' ' ∉ t) := by
  refine ⟨by decide, ?_, ?_⟩
  · intro text
    unfold parseCommandText
    rcases hsp : goSplitSpace text with _ | ⟨x, rest⟩
    · exact absurd hsp (goSplitSpace_ne_nil text)
    · cases rest with
      | nil => simp
      | cons y ys =>
          have h2 : (x :: y :: ys).length > 1 := by simp
          simp [h2]
  · intro l
    refine ⟨?_, splitOnCharAux_no_sep ' ' l [] (by simp)⟩
    rw [splitOnChar, intercalate_splitOnCharAux ' ' l []]
    simp

/-- Witness for C10 at a concrete input: the single token of the text
`ab` contains no space. -/
theorem c10_split_semantics_witness : ' ' ∉ "ab".toList :=
  (c10_split_semantics.2.2 "ab".toList).2 "ab".toList (by decide)

/-! ## Claim C4: empty command text (code bug) -/

/-- Claim C4 names a code bug: the spec resolves an empty command text
to the reserved `help` token, and the source initializes `command` to
`"help"` with the same intent (`pkg/slack/bot.go:162`), but Go
`strings.Split` never returns an empty slice — on empty input it
returns one empty piece — so the `len > 0` guard always overwrites the
default and the empty text resolves to the empty command name, which
matches no registered handler: the registry built by `NewSlackBot`
(whose help handler is named `help`) dispatches nothing for it. -/
theorem c4_empty_text_code_bug :
    parseCommandText "" = ("", []) ∧ ("" : String) ≠ "help" ∧
    afterAck (NewSlackBotHandlers []) "text=" = [] := by
  refine ⟨by decide, by decide, ?_⟩
  decide

/-! ## Claim C2: the signature comparison is not constant-time -/

/-- Counterexample to claim C2: the comparison the source performs at
`pkg/slack/bot.go:127` does not cost the same for every mismatch
position — two supplied signatures of equal length, one differing from
the computed value in its first character after none matching, the
other differing only in the last, are both rejected but at different
comparison counts. -/
theorem c2_constant_time_counterexample :
    (goStringEq "v0=aaaa" "v0=baaa").1 = false ∧
    (goStringEq "v0=aaaa" "v0=aaab").1 = false ∧
    (goStringEq "v0=aaaa" "v0=baaa").2 ≠ (goStringEq "v0=aaaa" "v0=aaab").2 := by
  decide

/-- Claim C2 amended: the signature comparison is Go built-in string
equality, a short-circuiting scan, not a constant-time check: on
equal-length unequal strings it rejects after exactly one comparison
more than the length of the common leading segment, so its cost grows
with the position of the first mismatch. -/
theorem c2_comparison_short_circuits (s t : String) (hlen : s.length = t.length)
    (hne : s ≠ t) :
    (goStringEq s t).1 = false ∧
    (goStringEq s t).2 = commonPrefixLen s.toList t.toList + 1 := by
  have hlists : s.toList ≠ t.toList := fun h => hne (String.ext h)
  constructor
  · cases hb : (goStringEq s t).1 with
    | false => rfl
    | true => exact absurd ((goStringEq_fst s t).mp hb) hne
  · unfold goStringEq
    rw [if_neg (by simp [hlen])]
    exact goStringEqCost_cost s.toList t.toList hlen hlists

/-- Witness for the amended C2 at a concrete input: signatures agreeing
on four leading characters are rejected at cost five. -/
theorem c2_comparison_short_circuits_witness :
    (goStringEq "v0=ab" "v0=ax").1 = false ∧
    (goStringEq "v0=ab" "v0=ax").2 = commonPrefixLen "v0=ab".toList "v0=ax".toList + 1 :=
  c2_comparison_short_circuits "v0=ab" "v0=ax" (by decide) (by decide)

/-! ## Claim C6: the help listing -/

/-- Counterexample to claim C6: the help handler does not exclude
itself. For the registry `NewSlackBot` builds from the echo handler
alone, the itself-excluded listing the claim describes would be the
echo entry only; the reply the synthesized help handler actually
produces appends its own entry after a blank line, because the slice
pointer it holds dereferences to the registry after the help handler
was appended to it. -/
theorem c6_help_includes_itself_counterexample :
    (NewHelpHandler ([echoHandler].map metaOf ++ [helpMeta])).Handle [] emptyScb =
      .ok { ResponseType := "ephemeral"
            Text := helpEntry (metaOf echoHandler) ++ "\n" ++ helpEntry helpMeta } ∧
    helpEntry (metaOf echoHandler) ++ "\n" ++ helpEntry helpMeta ≠
      helpEntry (metaOf echoHandler) := by
  constructor
  · rfl
  · decide

/-- Claim C6 amended: for every starting handler list, `NewSlackBot`
appends the synthesized help handler last, and that handler reply is
ephemeral with a text enumerating, for every registered handler
including the help handler itself, in registration order, the
handler name and argument description on one line and its
description on the next, with a blank line between consecutive
entries. -/
theorem c6_help_listing_amended (hs : List Handler) (args : List String)
    (scb : SlackSlashCommandBody) :
    NewSlackBotHandlers hs = hs ++ [NewHelpHandler (hs.map metaOf ++ [helpMeta])] ∧
    (NewHelpHandler (hs.map metaOf ++ [helpMeta])).Handle args scb =
      .ok { ResponseType := "ephemeral"
            Text := specHelpListing (hs.map metaOf ++ [helpMeta]) } := by
  refine ⟨rfl, ?_⟩
  show (Except.ok { ResponseType := "ephemeral", Text := helpTextFor (hs.map metaOf ++ [helpMeta]) }
      : Except String SlackResponse) = _
  rw [helpTextFor_eq_spec]

/-! ## Claim C7: a handler error becomes one ephemeral reply -/

/-- Claim C7: when the first handler whose name matches the command
fails, dispatch makes exactly one outbound reply call — the same
single `Respond` call a success takes — to the request callback URL,
with response type `ephemeral` and the error message as text. -/
theorem c7_handler_error_reply (pre post : List Handler) (h : Handler)
    (args : List String) (scb : SlackSlashCommandBody) (msg : String)
    (hpre : ∀ h2 ∈ pre, h2.CommandName ≠ h.CommandName)
    (herr : h.Handle args scb = .error msg) :
    dispatch (pre ++ h :: post) h.CommandName args scb =
      [Step.invoked h.CommandName args,
       Step.responded scb.ResponseURL "ephemeral" msg] := by
  rw [dispatch_first_match pre h post h.CommandName args scb hpre rfl, herr]
  rfl

/-- Witness for C7 at a concrete input: the always-failing handler
produces exactly one ephemeral reply carrying its error text. -/
theorem c7_handler_error_reply_witness :
    dispatch [failHandler] failHandler.CommandName [] emptyScb =
      [Step.invoked failHandler.CommandName [],
       Step.responded emptyScb.ResponseURL "ephemeral" "boom"] :=
  c7_handler_error_reply [] [] failHandler [] emptyScb "boom" (by simp) rfl

/-! ## Claim C8: unmatched commands are dropped, first match wins -/

/-- Claim C8: when no registered handler name equals the command
name, dispatch performs nothing — no handler invocation and no
outbound call; when a match exists, exactly the first matching handler
in registration order runs, exactly once, and determines the single
reply sent. -/
theorem c8_dispatch (hs : List Handler) (command : String) (args : List String)
    (scb : SlackSlashCommandBody) :
    ((∀ h ∈ hs, h.CommandName ≠ command) → dispatch hs command args scb = []) ∧
    (∀ pre h post, hs = pre ++ h :: post → (∀ h2 ∈ pre, h2.CommandName ≠ command) →
      h.CommandName = command →
      dispatch hs command args scb =
        [Step.invoked command args,
         Step.responded scb.ResponseURL (respOf (h.Handle args scb)).ResponseType
           (respOf (h.Handle args scb)).Text]) := by
  constructor
  · exact dispatch_no_match hs command args scb
  · intro pre h post hdecomp hpre hname
    subst hdecomp
    exact dispatch_first_match pre h post command args scb hpre hname

/-- Witness for C8 at a concrete input: a command matching no
registered handler produces the empty step list. -/
theorem c8_dispatch_witness : dispatch [echoHandler] "nope" [] emptyScb = [] :=
  (c8_dispatch [echoHandler] "nope" [] emptyScb).1 (by decide)

/-! ## Claim C9: the responder JSON shape -/

/-- Counterexample to claim C9: both fields are tagged `omitempty`, so
they are not always present — the serialized body of a reply with
empty text contains no `"text"` field at all. -/
theorem c9_omitempty_counterexample :
    hasSub "\"text\"".toList
      (Respond "https://cb" { ResponseType := "ephemeral", Text := "" }).body.toList
      = false := by
  decide

/-- Claim C9 amended: the responder serializes the reply as a JSON
object whose `response_type` and `text` fields are each emitted
exactly when the corresponding string is non-empty (their tags carry
`omitempty`), and issues a single POST carrying that body to the given
callback URL with a JSON content type; the response body is discarded. -/
theorem c9_responder_amended (url : String) (reply : SlackResponse) :
    (Respond url reply).method = "POST" ∧
    (Respond url reply).url = url ∧
    (Respond url reply).contentType = "application/json; charset=utf-8" ∧
    (reply.ResponseType ≠ "" → reply.Text ≠ "" →
      (Respond url reply).body =
        "\x7b" ++ "\"response_type\":" ++ jsonQuote reply.ResponseType
          ++ "," ++ "\"text\":" ++ jsonQuote reply.Text ++ "\x7d") ∧
    (reply.ResponseType ≠ "" → reply.Text = "" →
      (Respond url reply).body =
        "\x7b" ++ "\"response_type\":" ++ jsonQuote reply.ResponseType ++ "\x7d") ∧
    (reply.ResponseType = "" → reply.Text ≠ "" →
      (Respond url reply).body =
        "\x7b" ++ "\"text\":" ++ jsonQuote reply.Text ++ "\x7d") ∧
    (reply.ResponseType = "" → reply.Text = "" →
      (Respond url reply).body = "\x7b\x7d") := by
  refine ⟨rfl, rfl, rfl, ?_, ?_, ?_, ?_⟩ <;> intro h1 h2 <;>
    (simp [Respond, jsonMarshalSlackResponse, h1, h2, String.intercalate,
      String.intercalate.go, String.append_assoc]) <;> rfl

/-! ## Claim C1: signature verification -/

/-- Claim C1: for a POST with the form content type, a parseable
timestamp within the replay window, a supplied signature header equal
to `v0=` followed by the hex HMAC-SHA256 of `v0:{T}:{B}` under the
signing secret passes verification and the handler proceeds to the
post-acknowledgment phase on the unchanged body `B`; any supplied
header different from that value stops processing at a verification
rejection (the missing-header rejection when it is empty, the
mismatch rejection otherwise), with no acknowledgment, no handler
invocation and no outbound call. -/
theorem c1_signature_verification (signingKey : String) (hs : List Handler)
    (now ts : Int) (r : InboundRequest) (hm : r.method = "POST")
    (hct : r.contentType = "application/x-www-form-urlencoded")
    (hts : parseInt64 r.timestampHeader = some ts)
    (hwin : (now - ts).natAbs ≤ 300) :
    (r.signatureHeader = expectedSignature signingKey r.timestampHeader r.body →
      BuildHandler signingKey hs now r = Step.ack :: afterAck hs r.body) ∧
    (r.signatureHeader ≠ expectedSignature signingKey r.timestampHeader r.body →
      BuildHandler signingKey hs now r = [Step.rejectedMissingSignature] ∨
      BuildHandler signingKey hs now r = [Step.rejectedSignature]) := by
  have hT : r.timestampHeader.length ≠ 0 := parseInt64_length_ne_zero _ _ hts
  have hnw : ¬ ((now - ts).natAbs > 300) := by omega
  constructor
  · intro hsig
    have hSlen : r.signatureHeader.length ≠ 0 := by
      rw [hsig, expectedSignature, String.length_append]
      have h3 : ("v0=" : String).length = 3 := rfl
      omega
    have hcmp : (goStringEq (expectedSignature signingKey r.timestampHeader r.body)
        r.signatureHeader).1 = true :=
      (goStringEq_fst _ _).mpr hsig.symm
    simp [BuildHandler, hm, hct, hSlen, hT, hts, hnw, hcmp]
  · intro hsig
    by_cases hSlen : r.signatureHeader.length = 0
    · exact Or.inl (by simp [BuildHandler, hm, hct, hSlen])
    · refine Or.inr ?_
      have hcmp : (goStringEq (expectedSignature signingKey r.timestampHeader r.body)
          r.signatureHeader).1 = false := by
        cases hb : (goStringEq (expectedSignature signingKey r.timestampHeader r.body)
            r.signatureHeader).1 with
        | false => rfl
        | true => exact absurd ((goStringEq_fst _ _).mp hb).symm hsig
      simp [BuildHandler, hm, hct, hSlen, hT, hts, hnw, hcmp]

/-- Witness for C1 at a concrete input: a correctly signed echo
request passes every verification check and proceeds on its body. -/
theorem c1_signature_verification_witness :
    BuildHandler "k" [echoHandler] 1600000000 (mkReq "k" "text=echo+a+b&response_url=u") =
      Step.ack :: afterAck [echoHandler] (mkReq "k" "text=echo+a+b&response_url=u").body :=
  (c1_signature_verification "k" [echoHandler] 1600000000 1600000000
    (mkReq "k" "text=echo+a+b&response_url=u") rfl rfl (by decide) (by decide)).1 rfl

/-! ## Claim C3: acknowledgment ordering (corrected) -/

/-- Every run of the handler either stops at a verification rejection
(a single non-acknowledgment step) or acknowledges first and then
performs the post-acknowledgment phase. -/
theorem buildHandler_shapes (signingKey : String) (hs : List Handler) (now : Int)
    (r : InboundRequest) :
    (∃ rej, BuildHandler signingKey hs now r = [rej] ∧ rej.isPostVerify = false ∧
      rej ≠ Step.ack) ∨
    BuildHandler signingKey hs now r = Step.ack :: afterAck hs r.body := by
  unfold BuildHandler
  split
  · exact Or.inl ⟨Step.rejectedMethod, rfl, rfl, by decide⟩
  · split
    · exact Or.inl ⟨Step.rejectedContentType, rfl, rfl, by decide⟩
    · split
      · exact Or.inl ⟨Step.rejectedMissingSignature, rfl, rfl, by decide⟩
      · split
        · exact Or.inl ⟨Step.rejectedMissingTimestamp, rfl, rfl, by decide⟩
        · split
          · exact Or.inl ⟨Step.rejectedBadTimestamp, rfl, rfl, by decide⟩
          · split
            · exact Or.inl ⟨Step.rejectedReplayWindow, rfl, rfl, by decide⟩
            · dsimp only
              split
              · exact Or.inl ⟨Step.rejectedSignature, rfl, rfl, by decide⟩
              · exact Or.inr rfl

/-- Counterexample to claim C3: a correctly signed request whose body
is not a well-formed form (`a=%zz`) is acknowledged — the 200 write
precedes form parsing — and only then does parsing fail, so a request
whose body fails to parse has already been acknowledged before the
parse failure is known. -/
theorem c3_ack_before_parse_counterexample :
    BuildHandler "k" [] 1600000000 (mkReq "k" "a=%zz") =
      [Step.ack, Step.parseFailed] := by
  decide

/-- Claim C3 amended: the acknowledgment is written after the
verification checks but before form parsing, dispatch and the
outbound call — whenever a run contains any post-verification step
(a parse failure, the SSL short-circuit, a handler invocation or an
outbound reply), its first step is the acknowledgment. -/
theorem c3_ack_first_amended (signingKey : String) (hs : List Handler) (now : Int)
    (r : InboundRequest) (s : Step)
    (hmem : s ∈ BuildHandler signingKey hs now r)
    (hpost : s.isPostVerify = true) :
    (BuildHandler signingKey hs now r).head? = some Step.ack := by
  rcases buildHandler_shapes signingKey hs now r with ⟨rej, heq, hnp, _⟩ | heq
  · rw [heq] at hmem
    simp only [List.mem_singleton] at hmem
    subst hmem
    rw [hpost] at hnp
    exact absurd hnp (by decide)
  · rw [heq]
    rfl

/-- Witness for the amended C3 at a concrete input: the run containing
the parse failure for body `a=%zz` begins with the acknowledgment. -/
theorem c3_ack_first_amended_witness :
    (BuildHandler "k" [] 1600000000 (mkReq "k" "a=%zz")).head? = some Step.ack :=
  c3_ack_first_amended "k" [] 1600000000 (mkReq "k" "a=%zz") Step.parseFailed
    (by decide) (by decide)

/-! ## Claim C5: the replay-window boundary (corrected) -/

/-- Counterexample to claim C5: a correctly signed request whose
timestamp differs from the current time by exactly 300 seconds is not
rejected — the source rejects only differences strictly greater than
300 (`pkg/slack/bot.go:102`), so the run proceeds past every
verification check to the acknowledgment. -/
theorem c5_boundary_counterexample :
    BuildHandler "k" [] 1600000300 (mkReq "k" "") = [Step.ack] := by
  decide

/-- Claim C5 amended: a request whose parsed timestamp differs from
the current time by exactly 301 seconds is rejected by the replay
check, while a difference of exactly 300 seconds passes it — no
replay-window rejection occurs anywhere in that run. -/
theorem c5_boundary_amended (signingKey : String) (hs : List Handler) (now ts : Int)
    (r : InboundRequest) (hm : r.method = "POST")
    (hct : r.contentType = "application/x-www-form-urlencoded")
    (hsig : r.signatureHeader.length ≠ 0)
    (hts : parseInt64 r.timestampHeader = some ts) :
    ((now - ts).natAbs = 301 → BuildHandler signingKey hs now r = [Step.rejectedReplayWindow]) ∧
    ((now - ts).natAbs = 300 → Step.rejectedReplayWindow ∉ BuildHandler signingKey hs now r) := by
  have hT : r.timestampHeader.length ≠ 0 := parseInt64_length_ne_zero _ _ hts
  constructor
  · intro h301
    have hgt : (now - ts).natAbs > 300 := by omega
    simp [BuildHandler, hm, hct, hsig, hT, hts, hgt]
  · intro h300
    have hnw : ¬ ((now - ts).natAbs > 300) := by omega
    by_cases hcmp : (goStringEq (expectedSignature signingKey r.timestampHeader r.body)
        r.signatureHeader).1 = false
    · simp [BuildHandler, hm, hct, hsig, hT, hts, hnw, hcmp]
    · have hcmp2 : (goStringEq (expectedSignature signingKey r.timestampHeader r.body)
          r.signatureHeader).1 = true := by
        cases hb : (goStringEq (expectedSignature signingKey r.timestampHeader r.body)
            r.signatureHeader).1 with
        | true => rfl
        | false => exact absurd hb hcmp
      simp [BuildHandler, hm, hct, hsig, hT, hts, hnw, hcmp2]
      exact replay_not_mem_afterAck hs r.body

/-- Witness for the amended C5 at a concrete input: a difference of
exactly 301 seconds is rejected by the replay check. -/
theorem c5_boundary_amended_witness :
    BuildHandler "k" [] 1600000301
      { method := "POST", contentType := "application/x-www-form-urlencoded",
        signatureHeader := "x", timestampHeader := "1600000000", body := "" } =
      [Step.rejectedReplayWindow] :=
  (c5_boundary_amended "k" [] 1600000301 1600000000
    { method := "POST", contentType := "application/x-www-form-urlencoded",
      signatureHeader := "x", timestampHeader := "1600000000", body := "" }
    rfl rfl (by decide) (by decide)).1 (by decide)

/-- Witness for the amended C9 at a concrete input: a reply with both
fields non-empty serializes with both fields, in order. -/
theorem c9_responder_amended_witness :
    (Respond "u" { ResponseType := "in_channel", Text := "hi" }).body =
      "\x7b" ++ "\"response_type\":" ++ jsonQuote "in_channel"
        ++ "," ++ "\"text\":" ++ jsonQuote "hi" ++ "\x7d" :=
  (c9_responder_amended "u" { ResponseType := "in_channel", Text := "hi" }).2.2.2.1
    (by decide) (by decide)

end SlackBot
